import Mathlib

/-!
Shallow embedding of the HackRx LLM retrieval service:
`src/vector_db/faiss_manager.py` (class `FAISSManager`) and `main.py`
(the `run_hackrx_submission` endpoint orchestration).

Modelling conventions:
* Embedding vectors are lists of integers: exact stand-ins for float32
  values.  The verified claims concern selection order, counts and state
  bookkeeping, which do not depend on the scalar domain.
* `faiss.IndexFlatL2` is an external library.  Its `search(query, k)` call
  is represented by a result row passed in as data and constrained by the
  contract `IndexFlatL2Row` (exact k-nearest-neighbour selection, squared
  L2 distances, ascending order, `-1` padding).  The contract deliberately
  does NOT fix the relative order of equal-distance entries, which faiss
  leaves unspecified.
* External capabilities of the endpoint (document extraction, the missing
  `src/utils/text_splitter.py` chunker, the embedding model, the missing
  `src/llm/groq_llm_client.py` LLM client) are parameters of the
  orchestration function.
* Python in-place mutation plus a raised exception is modelled by
  returning the new state together with an optional raised error message.
-/

/-- A chunk's metadata mapping (Python `dict`); always `{}` in this code base. -/
abbrev Metadata := List (String × String)

/-- State of the singleton `FAISSManager`: the faiss index contents
(`_index`, as the ordered list of stored vectors; `ntotal` is its length),
and the parallel lists `_texts` and `_metadatas`. -/
structure FAISSState where
  dimension : Nat
  index : List (List ℤ)
  texts : List String
  metadatas : List Metadata
deriving DecidableEq

/-- Squared L2 distance between two vectors — the metric of
`faiss.IndexFlatL2` (faiss reports squared distances; ordering by squared
L2 coincides with ordering by L2). -/
def sqL2 (q v : List ℤ) : ℤ :=
  (List.zipWith (fun a b => (a - b) * (a - b)) q v).sum

/-- The entries of a faiss result row that carry a real neighbour
(`index != -1`); faiss pads the row with `-1` entries when fewer than `k`
stored vectors exist. -/
def validEntries (row : List (Int × ℤ)) : List (Int × ℤ) :=
  row.filter (fun p => p.1 ≠ -1)

/-- Contract of the external `faiss.IndexFlatL2.search` call on a store
`vs`, query `q` and requested neighbour count `k`.  The returned row
(pairs of internal id and squared distance) has length `k`; exactly
`min k vs.length` entries are valid; each valid entry points into the
store and carries the true squared L2 distance to the query; ids are
pairwise distinct; distances are non-decreasing; and no stored vector
left out of the row is strictly closer than a returned one (k-NN
completeness).  The relative order of equal-distance entries is NOT
constrained: faiss does not specify it. -/
abbrev IndexFlatL2Row (vs : List (List ℤ)) (q : List ℤ) (k : Nat) (row : List (Int × ℤ)) : Prop :=
  row.length = k ∧
  (validEntries row).length = min k vs.length ∧
  (∀ p ∈ validEntries row, 0 ≤ p.1 ∧ p.1.toNat < vs.length ∧ p.2 = sqL2 q (vs.getD p.1.toNat [])) ∧
  (validEntries row).Pairwise (fun p r => p.1 ≠ r.1) ∧
  (validEntries row).Pairwise (fun p r => p.2 ≤ r.2) ∧
  (∀ j, j < vs.length → (∀ p ∈ validEntries row, p.1.toNat ≠ j) →
    ∀ p ∈ validEntries row, p.2 ≤ sqL2 q (vs.getD j []))

/-- A search hit as built by `FAISSManager.search`:
`{"text": ..., "metadata": ..., "distance": ...}`. -/
structure SearchResult where
  text : String
  metadata : Metadata
  distance : ℤ
deriving DecidableEq

/-- `FAISSManager.search`: if `self._index.ntotal == 0` return `[]`;
otherwise walk the row returned by `self._index.search(query_np, k)`
(passed here as `row`, see `IndexFlatL2Row`), skip `-1` padding entries,
and build the result records.  The Python `self._texts[idx]` lookup is
total here via `getD`; the faiss contract keeps `idx` in range.  The
`metadata` field reproduces the source's
`self._metadatas[idx] if idx < len(self._metadatas) else \x7b\x7d` guard. -/
def FAISSManager.search (st : FAISSState) (row : List (Int × ℤ)) : List SearchResult :=
  if st.index.length = 0 then []
  else
    row.filterMap fun p =>
      if p.1 = -1 then none
      else
        some { text := st.texts.getD p.1.toNat ""
             , metadata := if p.1.toNat < st.metadatas.length then st.metadatas.getD p.1.toNat [] else []
             , distance := p.2 }

/-- `FAISSManager.add_documents`, faithful to the source's control flow:
the `if not embeddings or not texts` guard returns silently; the
embeddings/texts length check raises before any mutation; the index and
the texts are extended BEFORE the metadata length check, so a metadata
length mismatch raises with the index and texts already extended
(`if metadatas:` is falsy for both `None` and `[]`).  The second
component is the raised `ValueError` message, `none` when no exception
was raised. -/
def FAISSManager.add_documents (st : FAISSState) (embeddings : List (List ℤ))
    (texts : List String) (metadatas : Option (List Metadata)) :
    FAISSState × Option String :=
  if embeddings = [] ∨ texts = [] then
    (st, none)
  else if embeddings.length ≠ texts.length then
    (st, some "Number of embeddings and texts must match.")
  else
    let st1 : FAISSState :=
      { st with index := st.index ++ embeddings, texts := st.texts ++ texts }
    match metadatas with
    | some mds =>
      if mds ≠ [] then
        if mds.length ≠ texts.length then
          (st1, some "Number of metadatas and texts must match if provided.")
        else
          ({ st1 with metadatas := st1.metadatas ++ mds }, none)
      else
        ({ st1 with metadatas := st1.metadatas ++ texts.map (fun _ => ([] : Metadata)) }, none)
    | none =>
      ({ st1 with metadatas := st1.metadatas ++ texts.map (fun _ => ([] : Metadata)) }, none)

/-- `FAISSManager.reset_index`: `self._index.reset()`,
`self._texts = []`, `self._metadatas = []`. -/
def FAISSManager.reset_index (st : FAISSState) : FAISSState :=
  { st with index := [], texts := [], metadatas := [] }

/-- `asyncio.gather(*llm_tasks)` over the already-determined task results,
in task-creation order: returns the ordered list of results, or raises the
exception of a failed task (no partial list is ever produced). -/
def gatherTasks : List (Except String String) → Except String (List String)
  | [] => Except.ok []
  | Except.error e :: _ => Except.error e
  | Except.ok a :: rest =>
    match gatherTasks rest with
    | Except.error e => Except.error e
    | Except.ok l => Except.ok (a :: l)

/-- The per-question loop plus `asyncio.gather` of `run_hackrx_submission`
(`main.py`).  For each question the code embeds the question and calls
`faiss_manager.search(query_embedding_single, k=TOP_K_RETRIEVAL)`; both
externals are folded into `rows`, the faiss row obtained for that
question (constrained by `IndexFlatL2Row` where a theorem needs it).  If
the search results are empty a completed task carrying the literal
fallback string is appended; otherwise a task calling
`groq_llm_client.generate_answer(question, retrieved_contexts)` (the
repository's LLM client, absent from the sources; modelled as the
fallible parameter `generate`). -/
def answerPhase (st : FAISSState) (rows : String → List (Int × ℤ))
    (generate : String → List String → Except String String)
    (questions : List String) : Except String (List String) :=
  gatherTasks (questions.map fun question =>
    let search_results := FAISSManager.search st (rows question)
    if search_results.isEmpty then
      Except.ok ("Information for '" ++ question ++ "' not found in document.")
    else
      generate question (search_results.map (fun r => r.text)))

/-- Python's `str.split(" ")` on the character list: splits at every
single space, keeping empty fields (so `"".split(" ") == [""]` and
`"a  b".split(" ") == ["a", "", "b"]`). -/
def splitSpace : List Char → List (List Char)
  | [] => [[]]
  | c :: rest =>
    let r := splitSpace rest
    if c = ' ' then [] :: r
    else
      match r with
      | [] => [[c]]
      | w :: ws => (c :: w) :: ws

/-- The bearer-token check at the top of `run_hackrx_submission`:
`not auth_header` rejects a missing or empty header; then
`token_type, token = auth_header.split(" ")` must yield exactly two
fields or the `ValueError` handler rejects; finally
`token_type.lower() != "bearer" or token != REQUIRED_AUTH_TOKEN`
rejects.  Returns `true` when the request proceeds past the auth check,
`false` when a 401 is raised. -/
def checkAuth (authHeader : Option String) (requiredToken : String) : Bool :=
  match authHeader with
  | none => false
  | some h =>
    if h.data = [] then false
    else
      match splitSpace h.data with
      | [token_type, token] =>
        (token_type.map Char.toLower = "bearer".data) && (token = requiredToken.data)
      | _ => false

/-- Python's default `str.strip()` whitespace set. -/
def isPythonSpace (c : Char) : Bool :=
  c = ' ' || c = '\t' || c = '\n' || c = '\r' || c = '\x0b' || c = '\x0c'

/-- `not document_text.strip()`: true exactly when every character is
whitespace (equivalently, stripping leaves the empty string). -/
def stripIsEmpty (s : String) : Bool :=
  s.data.all isPythonSpace

/-- The externally observable steps of one request, in execution order:
text extraction, `split_text_into_chunks`, `get_embeddings` over the
chunks, `faiss_manager.reset_index`, `faiss_manager.add_documents`. -/
inductive RunEvent where
  | extractEv
  | chunkEv
  | embedEv
  | resetEv
  | addEv
deriving DecidableEq

/-- Outcome of one request to `POST /api/v1/hackrx/run`: HTTP status,
the `answers` payload when status 200, the final `FAISSManager` state,
and the trace of ingestion-pipeline events that were executed. -/
structure RunOutcome where
  status : Nat
  answers : Option (List String)
  state : FAISSState
  trace : List RunEvent
deriving DecidableEq

/-- `run_hackrx_submission` (`main.py`), with its external collaborators
as parameters: `extractResult` is the value of
`extract_text_from_document(document_url)`; `split_text_into_chunks` is
the chunker from the repository's `src/utils/text_splitter.py` (absent
from the sources), called with `CHUNK_SIZE = 1000`, `CHUNK_OVERLAP =
200`; `getEmbeddings` is `embedding_generator.get_embeddings`; `rows`
and `generate` are as in `answerPhase`.  Control flow follows the
source: auth check (401), extraction emptiness check (400), chunking
emptiness check (400), embedding, `reset_index`, `add_documents`
(an escaped `ValueError` would surface as a 500), then the concurrent
question loop (a failed task surfaces as a 500, otherwise 200 with the
gathered answers). -/
def run_hackrx_submission (st0 : FAISSState) (authHeader : Option String)
    (requiredToken : String) (extractResult : Option String)
    (split_text_into_chunks : String → Nat → Nat → List String)
    (getEmbeddings : List String → List (List ℤ))
    (rows : String → List (Int × ℤ))
    (generate : String → List String → Except String String)
    (questions : List String) : RunOutcome :=
  if checkAuth authHeader requiredToken = false then
    ⟨401, none, st0, []⟩
  else
    match extractResult with
    | none => ⟨400, none, st0, [RunEvent.extractEv]⟩
    | some document_text =>
      if stripIsEmpty document_text then
        ⟨400, none, st0, [RunEvent.extractEv]⟩
      else
        let text_chunks := split_text_into_chunks document_text 1000 200
        if text_chunks = [] then
          ⟨400, none, st0, [RunEvent.extractEv, RunEvent.chunkEv]⟩
        else
          let chunk_embeddings := getEmbeddings text_chunks
          let st1 := FAISSManager.reset_index st0
          let added := FAISSManager.add_documents st1 chunk_embeddings text_chunks none
          let tr := [RunEvent.extractEv, RunEvent.chunkEv, RunEvent.embedEv,
                     RunEvent.resetEv, RunEvent.addEv]
          match added.2 with
          | some _ => ⟨500, none, added.1, tr⟩
          | none =>
            match answerPhase added.1 rows generate questions with
            | Except.error _ => ⟨500, none, added.1, tr⟩
            | Except.ok final_answers => ⟨200, some final_answers, added.1, tr⟩

/-- The searching branch of `FAISSManager.search` is the map of a result
builder over the valid entries of the faiss row. -/
theorem filterMap_skip_eq_map (row : List (Int × ℤ)) (g : Int × ℤ → SearchResult) :
    (row.filterMap fun p => if p.1 = -1 then none else some (g p)) =
      (validEntries row).map g := by
  induction row with
  | nil => rfl
  | cons p rest ih =>
    by_cases h : p.1 = -1
    · simp only [List.filterMap_cons, validEntries, List.filter_cons, h, if_pos,
        decide_not, ih]
      simp [validEntries]
    · simp only [List.filterMap_cons, validEntries, List.filter_cons, h, if_neg,
        decide_not, ih]
      simp [validEntries, h]

/-- On a non-empty index, `FAISSManager.search` maps the result builder
over the valid entries of the faiss row. -/
theorem search_eq_map (st : FAISSState) (row : List (Int × ℤ)) (h : ¬st.index.length = 0) :
    FAISSManager.search st row =
      (validEntries row).map (fun p =>
        { text := st.texts.getD p.1.toNat ""
        , metadata :=
            if p.1.toNat < st.metadatas.length then st.metadatas.getD p.1.toNat [] else []
        , distance := p.2 }) := by
  unfold FAISSManager.search
  rw [if_neg h]
  exact filterMap_skip_eq_map row _

/-- C1 (counterexample to the claim as stated): with two stored vectors at
equal (zero) squared L2 distance from the query, the row
`[(1, 0), (0, 0)]` satisfies the full `faiss.IndexFlatL2.search` contract
for `k = 2` — correct length, true distances, distinct ids, non-decreasing
distances, k-NN completeness — yet `FAISSManager.search` built on it
returns the second-inserted text before the first-inserted one.  The
repository adds no tie-break of its own, so the claimed insertion-order
stability does not hold for every admissible library behaviour. -/
theorem search_tie_not_insertion_stable :
    sqL2 [0] ([[0], [0]].getD 0 []) = sqL2 [0] ([[0], [0]].getD 1 []) ∧
    IndexFlatL2Row [[0], [0]] [0] 2 [(1, 0), (0, 0)] ∧
    (FAISSManager.search ⟨1, [[0], [0]], ["first", "second"], [[], []]⟩
        [(1, 0), (0, 0)]).map (fun r => r.text) = ["second", "first"] := by
  decide

/-- C1 (amended): for every populated index, query and `k`, and every row
admitted by the `faiss.IndexFlatL2.search` contract, `search` returns at
most `k` results ordered by non-decreasing (squared) L2 distance to the
query.  The relative order of equal-distance entries is inherited from
the library row and is not guaranteed to be insertion-order stable. -/
theorem search_sorted_by_distance (st : FAISSState) (q : List ℤ) (k : Nat)
    (row : List (Int × ℤ)) (h : IndexFlatL2Row st.index q k row) :
    (FAISSManager.search st row).length ≤ k ∧
    (FAISSManager.search st row).Pairwise (fun a b => a.distance ≤ b.distance) := by
  by_cases hz : st.index.length = 0
  · unfold FAISSManager.search
    rw [if_pos hz]
    exact ⟨Nat.zero_le k, List.Pairwise.nil⟩
  · rw [search_eq_map st row hz]
    constructor
    · rw [List.length_map, h.2.1]
      exact Nat.le_trans (Nat.min_le_left k st.index.length) (Nat.le_refl k)
    · rw [List.pairwise_map]
      exact h.2.2.2.2.1

/-- Witness for C1's amended theorem at a concrete populated index, query
and admissible row. -/
theorem search_sorted_by_distance_witness :
    IndexFlatL2Row [[0], [3]] [1] 2 [(0, 1), (1, 4)] ∧
    ((FAISSManager.search ⟨1, [[0], [3]], ["a", "b"], [[], []]⟩ [(0, 1), (1, 4)]).length ≤ 2 ∧
      (FAISSManager.search ⟨1, [[0], [3]], ["a", "b"], [[], []]⟩ [(0, 1), (1, 4)]).Pairwise
        (fun a b => a.distance ≤ b.distance)) :=
  ⟨by decide, search_sorted_by_distance ⟨1, [[0], [3]], ["a", "b"], [[], []]⟩ [1] 2
    [(0, 1), (1, 4)] (by decide)⟩

/-- C5: for every index holding `M` stored entries, every query, every
`k`, and every row admitted by the `faiss.IndexFlatL2.search` contract,
`search` returns exactly `min M k` results sorted by non-decreasing
distance; on an empty index it returns the empty list (no error — the
function is total), and when `k` is at least the stored count every
stored entry appears in the results with its text and distance. -/
theorem search_returns_min_count (st : FAISSState) (q : List ℤ) (k : Nat)
    (row : List (Int × ℤ)) (h : IndexFlatL2Row st.index q k row) :
    (FAISSManager.search st row).length = min st.index.length k ∧
    (FAISSManager.search st row).Pairwise (fun a b => a.distance ≤ b.distance) ∧
    (st.index.length = 0 → FAISSManager.search st row = []) ∧
    (st.index.length ≤ k → ∀ j, j < st.index.length →
      ∃ r ∈ FAISSManager.search st row,
        r.text = st.texts.getD j "" ∧ r.distance = sqL2 q (st.index.getD j [])) := by
  by_cases hz : st.index.length = 0
  · unfold FAISSManager.search
    rw [if_pos hz]
    refine ⟨by rw [hz, List.length_nil, Nat.zero_min], List.Pairwise.nil, fun _ => rfl, ?_⟩
    intro _ j hj
    rw [hz] at hj
    exact absurd hj (Nat.not_lt_zero j)
  · rw [search_eq_map st row hz]
    refine ⟨?_, ?_, fun hc => absurd hc hz, ?_⟩
    · rw [List.length_map, h.2.1, Nat.min_comm]
    · rw [List.pairwise_map]
      exact h.2.2.2.2.1
    · intro hMk j hj
      have hlenV : (validEntries row).length = st.index.length := by
        rw [h.2.1]
        exact Nat.min_eq_right hMk
      have hne : (validEntries row).Pairwise (fun a b => a.1.toNat ≠ b.1.toNat) := by
        refine List.Pairwise.imp_of_mem ?_ h.2.2.2.1
        intro a b ha hb hab hEq
        have h0a := (h.2.2.1 a ha).1
        have h0b := (h.2.2.1 b hb).1
        exact hab (by omega)
      have hnodup : ((validEntries row).map (fun p => p.1.toNat)).Nodup :=
        List.pairwise_map.mpr hne
      have hbound : ∀ x ∈ (validEntries row).map (fun p => p.1.toNat), x < st.index.length := by
        intro x hx
        rcases List.mem_map.mp hx with ⟨p, hp, rfl⟩
        exact (h.2.2.1 p hp).2.1
      have hmem : j ∈ (validEntries row).map (fun p => p.1.toNat) := by
        have hsub : ((validEntries row).map (fun p => p.1.toNat)).toFinset ⊆
            Finset.range st.index.length := by
          intro x hx
          rw [Finset.mem_range]
          exact hbound x (List.mem_toFinset.mp hx)
        have hcard : ((validEntries row).map (fun p => p.1.toNat)).toFinset.card =
            st.index.length := by
          rw [List.toFinset_card_of_nodup hnodup, List.length_map, hlenV]
        have hEqF : ((validEntries row).map (fun p => p.1.toNat)).toFinset =
            Finset.range st.index.length :=
          Finset.eq_of_subset_of_card_le hsub (by rw [hcard, Finset.card_range])
        have hj' : j ∈ Finset.range st.index.length := Finset.mem_range.mpr hj
        rw [← hEqF] at hj'
        exact List.mem_toFinset.mp hj'
      rcases List.mem_map.mp hmem with ⟨p, hpV, hpj⟩
      refine ⟨_, List.mem_map_of_mem _ hpV, ?_, ?_⟩
      · rw [hpj]
      · show p.2 = sqL2 q (st.index.getD j [])
        rw [(h.2.2.1 p hpV).2.2, hpj]

/-- Witness for C5 at a concrete three-entry index searched with `k = 5`:
all three entries come back, sorted. -/
theorem search_returns_min_count_witness :
    IndexFlatL2Row [[2], [0], [1]] [0] 5 [(1, 0), (2, 1), (0, 4), (-1, 0), (-1, 0)] ∧
    ((FAISSManager.search ⟨1, [[2], [0], [1]], ["x", "y", "z"], [[], [], []]⟩
        [(1, 0), (2, 1), (0, 4), (-1, 0), (-1, 0)]).length = min 3 5 ∧
      (FAISSManager.search ⟨1, [[2], [0], [1]], ["x", "y", "z"], [[], [], []]⟩
        [(1, 0), (2, 1), (0, 4), (-1, 0), (-1, 0)]).Pairwise
          (fun a b => a.distance ≤ b.distance) ∧
      (([[2], [0], [1]] : List (List ℤ)).length = 0 →
        FAISSManager.search ⟨1, [[2], [0], [1]], ["x", "y", "z"], [[], [], []]⟩
          [(1, 0), (2, 1), (0, 4), (-1, 0), (-1, 0)] = []) ∧
      (([[2], [0], [1]] : List (List ℤ)).length ≤ 5 →
        ∀ j, j < ([[2], [0], [1]] : List (List ℤ)).length →
          ∃ r ∈ FAISSManager.search ⟨1, [[2], [0], [1]], ["x", "y", "z"], [[], [], []]⟩
              [(1, 0), (2, 1), (0, 4), (-1, 0), (-1, 0)],
            r.text = ["x", "y", "z"].getD j "" ∧
            r.distance = sqL2 [0] (([[2], [0], [1]] : List (List ℤ)).getD j []))) :=
  ⟨by decide, search_returns_min_count ⟨1, [[2], [0], [1]], ["x", "y", "z"], [[], [], []]⟩
    [0] 5 [(1, 0), (2, 1), (0, 4), (-1, 0), (-1, 0)] (by decide)⟩

/-- On a state whose index and text store have equal length, every
`search` result text is one of the stored texts. -/
theorem search_text_mem (st : FAISSState) (q : List ℤ) (k : Nat) (row : List (Int × ℤ))
    (h : IndexFlatL2Row st.index q k row) (hlen : st.index.length = st.texts.length) :
    ∀ r ∈ FAISSManager.search st row, r.text ∈ st.texts := by
  by_cases hz : st.index.length = 0
  · unfold FAISSManager.search
    rw [if_pos hz]
    intro r hr
    exact absurd hr (List.not_mem_nil r)
  · rw [search_eq_map st row hz]
    intro r hr
    rcases List.mem_map.mp hr with ⟨p, hp, rfl⟩
    have hb : p.1.toNat < st.texts.length := hlen ▸ (h.2.2.1 p hp).2.1
    show st.texts.getD p.1.toNat "" ∈ st.texts
    rw [List.getD_eq_getElem st.texts "" hb]
    exact List.getElem_mem hb

/-- C6: after `reset_index` the stored count is 0 and `search` returns the
empty list for every row; consequently, ingesting document B after the
reset (exactly what the endpoint does between two documents A and B)
yields a state on which every search result text is one of B's chunk
texts — no chunk of the previously ingested document A is reachable. -/
theorem reset_clears_and_isolates (st stA : FAISSState) (row : List (Int × ℤ))
    (eB : List (List ℤ)) (tB : List String) (q : List ℤ) (k : Nat) (rowB : List (Int × ℤ))
    (h : IndexFlatL2Row
      ((FAISSManager.add_documents (FAISSManager.reset_index stA) eB tB none).1).index q k rowB) :
    (FAISSManager.reset_index st).index.length = 0 ∧
    FAISSManager.search (FAISSManager.reset_index st) row = [] ∧
    ∀ r ∈ FAISSManager.search
        (FAISSManager.add_documents (FAISSManager.reset_index stA) eB tB none).1 rowB,
      r.text ∈ tB := by
  refine ⟨rfl, by simp [FAISSManager.search, FAISSManager.reset_index], ?_⟩
  by_cases he : eB = []
  · have hst : (FAISSManager.add_documents (FAISSManager.reset_index stA) eB tB none).1 =
        FAISSManager.reset_index stA := by
      unfold FAISSManager.add_documents
      rw [if_pos (Or.inl he)]
    rw [hst]
    simp [FAISSManager.search, FAISSManager.reset_index]
  · by_cases ht : tB = []
    · have hst : (FAISSManager.add_documents (FAISSManager.reset_index stA) eB tB none).1 =
          FAISSManager.reset_index stA := by
        unfold FAISSManager.add_documents
        rw [if_pos (Or.inr ht)]
      rw [hst]
      simp [FAISSManager.search, FAISSManager.reset_index]
    · by_cases hlen : eB.length = tB.length
      · have hst : (FAISSManager.add_documents (FAISSManager.reset_index stA) eB tB none).1 =
            ⟨stA.dimension, eB, tB, tB.map (fun _ => ([] : Metadata))⟩ := by
          unfold FAISSManager.add_documents FAISSManager.reset_index
          rw [if_neg (fun hc => hc.elim he ht), if_neg (not_not_intro hlen)]
          simp
        rw [hst] at h ⊢
        have := search_text_mem ⟨stA.dimension, eB, tB, tB.map (fun _ => ([] : Metadata))⟩
          q k rowB h hlen
        exact this
      · have hst : (FAISSManager.add_documents (FAISSManager.reset_index stA) eB tB none).1 =
            FAISSManager.reset_index stA := by
          unfold FAISSManager.add_documents
          rw [if_neg (fun hc => hc.elim he ht), if_pos hlen]
        rw [hst]
        simp [FAISSManager.search, FAISSManager.reset_index]

/-- Witness for C6: a concrete state holding document A's chunk, then a
reset-and-ingest of document B; B's single chunk is the only reachable
text. -/
theorem reset_clears_and_isolates_witness :
    IndexFlatL2Row
      ((FAISSManager.add_documents
        (FAISSManager.reset_index ⟨1, [[7]], ["A-chunk"], [[]]⟩) [[0]] ["B-chunk"] none).1).index
      [0] 10 [(0, 0), (-1, 0), (-1, 0), (-1, 0), (-1, 0), (-1, 0), (-1, 0), (-1, 0), (-1, 0), (-1, 0)] ∧
    ((FAISSManager.reset_index ⟨1, [[7]], ["A-chunk"], [[]]⟩).index.length = 0 ∧
      FAISSManager.search (FAISSManager.reset_index ⟨1, [[7]], ["A-chunk"], [[]]⟩) [(0, 0)] = [] ∧
      ∀ r ∈ FAISSManager.search
          (FAISSManager.add_documents
            (FAISSManager.reset_index ⟨1, [[7]], ["A-chunk"], [[]]⟩) [[0]] ["B-chunk"] none).1
          [(0, 0), (-1, 0), (-1, 0), (-1, 0), (-1, 0), (-1, 0), (-1, 0), (-1, 0), (-1, 0), (-1, 0)],
        r.text ∈ ["B-chunk"]) :=
  ⟨by decide, reset_clears_and_isolates ⟨1, [[7]], ["A-chunk"], [[]]⟩ ⟨1, [[7]], ["A-chunk"], [[]]⟩
    [(0, 0)] [[0]] ["B-chunk"] [0] 10
    [(0, 0), (-1, 0), (-1, 0), (-1, 0), (-1, 0), (-1, 0), (-1, 0), (-1, 0), (-1, 0), (-1, 0)]
    (by decide)⟩

/-- C7 (counterexample to the claim as stated): `add_documents` with an
empty embeddings list and a non-empty texts list has mismatched lengths,
yet the `if not embeddings or not texts` guard returns silently — no
error is raised and nothing changes. -/
theorem add_documents_empty_mismatch_no_error :
    ([] : List (List ℤ)).length ≠ ["a"].length ∧
    FAISSManager.add_documents ⟨384, [], [], []⟩ [] ["a"] none =
      (⟨384, [], [], []⟩, none) := by
  decide

/-- C7 (amended): when either `embeddings` or `texts` is empty the call
returns silently without change; when both are non-empty a length
mismatch between them raises with no change; otherwise the embeddings
and the texts are appended, after which a given non-empty `metadatas` of
mismatching length raises with the embeddings and texts ALREADY appended
and the metadatas untouched; a call that raises no error appends the
metadatas (defaulting each missing one to an empty mapping), so that if
the three stored counts were equal before such a call they are equal
after it. -/
theorem add_documents_behavior (st : FAISSState) (e : List (List ℤ)) (t : List String)
    (md : Option (List Metadata)) :
    (e = [] ∨ t = [] → FAISSManager.add_documents st e t md = (st, none)) ∧
    (e ≠ [] → t ≠ [] → e.length ≠ t.length →
      FAISSManager.add_documents st e t md =
        (st, some "Number of embeddings and texts must match.")) ∧
    (e ≠ [] → t ≠ [] → e.length = t.length →
      (FAISSManager.add_documents st e t md).1.index = st.index ++ e ∧
      (FAISSManager.add_documents st e t md).1.texts = st.texts ++ t ∧
      (md = none →
        (FAISSManager.add_documents st e t md).1.metadatas =
          st.metadatas ++ t.map (fun _ => ([] : Metadata)) ∧
        (FAISSManager.add_documents st e t md).2 = none) ∧
      (∀ mds, md = some mds → mds ≠ [] → mds.length ≠ t.length →
        (FAISSManager.add_documents st e t md).2 =
          some "Number of metadatas and texts must match if provided." ∧
        (FAISSManager.add_documents st e t md).1.metadatas = st.metadatas) ∧
      ((FAISSManager.add_documents st e t md).2 = none →
        st.index.length = st.texts.length → st.texts.length = st.metadatas.length →
        (FAISSManager.add_documents st e t md).1.index.length =
          (FAISSManager.add_documents st e t md).1.texts.length ∧
        (FAISSManager.add_documents st e t md).1.texts.length =
          (FAISSManager.add_documents st e t md).1.metadatas.length)) := by
  refine ⟨?_, ?_, ?_⟩
  · intro hor
    unfold FAISSManager.add_documents
    rw [if_pos hor]
  · intro he ht hne
    unfold FAISSManager.add_documents
    rw [if_neg (fun hc => hc.elim he ht), if_pos hne]
  · intro he ht hlen
    have h1 : ¬(e = [] ∨ t = []) := fun hc => hc.elim he ht
    have h2 : ¬(e.length ≠ t.length) := not_not_intro hlen
    match md with
    | none =>
      refine ⟨?_, ?_, ?_, ?_, ?_⟩
      · unfold FAISSManager.add_documents
        rw [if_neg h1, if_neg h2]
      · unfold FAISSManager.add_documents
        rw [if_neg h1, if_neg h2]
      · intro _
        constructor
        · unfold FAISSManager.add_documents
          rw [if_neg h1, if_neg h2]
        · unfold FAISSManager.add_documents
          rw [if_neg h1, if_neg h2]
      · intro mds hmds
        exact absurd hmds (by simp)
      · intro _ hit hm
        unfold FAISSManager.add_documents
        rw [if_neg h1, if_neg h2]
        simp only [List.length_append, List.length_map]
        omega
    | some mds =>
      by_cases hmnil : mds = []
      · refine ⟨?_, ?_, ?_, ?_, ?_⟩
        · unfold FAISSManager.add_documents
          rw [if_neg h1, if_neg h2]
          simp [hmnil]
        · unfold FAISSManager.add_documents
          rw [if_neg h1, if_neg h2]
          simp [hmnil]
        · intro hc
          exact absurd hc (by simp)
        · intro mds2 hmds2 hne2 _
          rw [Option.some_inj] at hmds2
          exact absurd (hmds2 ▸ hmnil) hne2
        · intro _ hit hm
          unfold FAISSManager.add_documents
          rw [if_neg h1, if_neg h2]
          simp only [hmnil, if_neg (not_not_intro rfl), List.length_append, List.length_map]
          simp
          omega
      · by_cases hmlen : mds.length = t.length
        · refine ⟨?_, ?_, ?_, ?_, ?_⟩
          · unfold FAISSManager.add_documents
            rw [if_neg h1, if_neg h2]
            simp [hmnil, not_not_intro hmlen]
          · unfold FAISSManager.add_documents
            rw [if_neg h1, if_neg h2]
            simp [hmnil, not_not_intro hmlen]
          · intro hc
            exact absurd hc (by simp)
          · intro mds2 hmds2 _ hne3
            rw [Option.some_inj] at hmds2
            exact absurd (hmds2 ▸ hmlen) hne3
          · intro _ hit hm
            unfold FAISSManager.add_documents
            rw [if_neg h1, if_neg h2]
            simp only [hmnil, hmlen, List.length_append]
            simp [hmnil, not_not_intro hmlen]
            omega
        · refine ⟨?_, ?_, ?_, ?_, ?_⟩
          · unfold FAISSManager.add_documents
            rw [if_neg h1, if_neg h2]
            simp [hmnil, hmlen]
          · unfold FAISSManager.add_documents
            rw [if_neg h1, if_neg h2]
            simp [hmnil, hmlen]
          · intro hc
            exact absurd hc (by simp)
          · intro mds2 hmds2 _ _
            rw [Option.some_inj] at hmds2
            subst hmds2
            constructor
            · unfold FAISSManager.add_documents
              rw [if_neg h1, if_neg h2]
              simp [hmnil, hmlen]
            · unfold FAISSManager.add_documents
              rw [if_neg h1, if_neg h2]
              simp [hmnil, hmlen]
          · intro hok
            exfalso
            revert hok
            unfold FAISSManager.add_documents
            rw [if_neg h1, if_neg h2]
            simp [hmnil, hmlen]

/-- Witness for C7's amended theorem: the silent empty-input return and
the pre-mutation length-mismatch error, at concrete inputs. -/
theorem add_documents_behavior_witness :
    FAISSManager.add_documents ⟨1, [[1]], ["x"], [[]]⟩ [] [] none =
      (⟨1, [[1]], ["x"], [[]]⟩, none) ∧
    FAISSManager.add_documents ⟨1, [[1]], ["x"], [[]]⟩ [[2], [3]] ["y"] none =
      (⟨1, [[1]], ["x"], [[]]⟩, some "Number of embeddings and texts must match.") :=
  ⟨(add_documents_behavior ⟨1, [[1]], ["x"], [[]]⟩ [] [] none).1 (Or.inl rfl),
    (add_documents_behavior ⟨1, [[1]], ["x"], [[]]⟩ [[2], [3]] ["y"] none).2.1
      (by decide) (by decide) (by decide)⟩

instance {ε α : Type} [DecidableEq ε] [DecidableEq α] : DecidableEq (Except ε α) :=
  fun a b =>
    match a, b with
    | Except.ok x, Except.ok y =>
      if h : x = y then isTrue (by rw [h]) else isFalse (by simp [h])
    | Except.error x, Except.error y =>
      if h : x = y then isTrue (by rw [h]) else isFalse (by simp [h])
    | Except.ok _, Except.error _ => isFalse (by simp)
    | Except.error _, Except.ok _ => isFalse (by simp)

/-- If `gather` succeeds, the task list was exactly the successful results
in order. -/
theorem gatherTasks_ok (l : List (Except String String)) (res : List String)
    (h : gatherTasks l = Except.ok res) : l = res.map Except.ok := by
  induction l generalizing res with
  | nil =>
    unfold gatherTasks at h
    injection h with h
    rw [← h]
    rfl
  | cons x rest ih =>
    match x with
    | Except.error e => exact absurd h (by unfold gatherTasks; simp)
    | Except.ok a =>
      unfold gatherTasks at h
      cases hre : gatherTasks rest with
      | error e =>
        rw [hre] at h
        exact absurd h (by simp)
      | ok l2 =>
        rw [hre] at h
        injection h with h
        rw [← h, List.map_cons]
        rw [ih l2 hre]

/-- If any task in the list failed, `gather` fails. -/
theorem gatherTasks_error (l : List (Except String String))
    (h : ∃ t ∈ l, ∃ e, t = Except.error e) :
    ∃ e, gatherTasks l = Except.error e := by
  induction l with
  | nil =>
    rcases h with ⟨t, ht, _⟩
    exact absurd ht (List.not_mem_nil t)
  | cons x rest ih =>
    match x with
    | Except.error e => exact ⟨e, rfl⟩
    | Except.ok a =>
      rcases h with ⟨t, ht, e, hte⟩
      rcases List.mem_cons.mp ht with h1 | h2
      · rw [hte] at h1
        exact absurd h1 (by simp)
      · rcases ih ⟨t, h2, e, hte⟩ with ⟨e2, he2⟩
        refine ⟨e2, ?_⟩
        unfold gatherTasks
        rw [he2]

/-- C2: whenever the answer orchestration succeeds on `N` questions, it
yields exactly `N` answers in input order: the `i`-th answer is the exact
fallback string `Information for '<question>' not found in document.`
when the `i`-th question's retrieval came back empty (the generation
capability plays no role in that answer), and otherwise it is the
generation capability's result on the `i`-th question with its retrieved
context texts. -/
theorem answers_aligned (st : FAISSState) (rows : String → List (Int × ℤ))
    (generate : String → List String → Except String String)
    (questions answers : List String)
    (h : answerPhase st rows generate questions = Except.ok answers) :
    answers.length = questions.length ∧
    ∀ i, i < questions.length →
      ((FAISSManager.search st (rows (questions.getD i ""))).isEmpty = true →
        answers.getD i "" =
          "Information for '" ++ questions.getD i "" ++ "' not found in document.") ∧
      ((FAISSManager.search st (rows (questions.getD i ""))).isEmpty = false →
        generate (questions.getD i "")
            ((FAISSManager.search st (rows (questions.getD i ""))).map (fun r => r.text)) =
          Except.ok (answers.getD i "")) := by
  have hmap := gatherTasks_ok _ _ h
  have hlen : answers.length = questions.length := by
    have hl := congrArg List.length hmap
    simp only [List.length_map] at hl
    omega
  refine ⟨hlen, ?_⟩
  intro i hi
  have hi2 : i < answers.length := by omega
  have hq : i < (questions.map fun question =>
      let search_results := FAISSManager.search st (rows question)
      if search_results.isEmpty then
        Except.ok ("Information for '" ++ question ++ "' not found in document.")
      else
        generate question (search_results.map (fun r => r.text))).length := by
    rw [List.length_map]
    exact hi
  have ha : i < (answers.map (Except.ok : String → Except String String)).length := by
    rw [List.length_map]
    exact hi2
  have hEl : (questions.map fun question =>
      let search_results := FAISSManager.search st (rows question)
      if search_results.isEmpty then
        Except.ok ("Information for '" ++ question ++ "' not found in document.")
      else
        generate question (search_results.map (fun r => r.text))).getD i (Except.ok "") =
      (answers.map (Except.ok : String → Except String String)).getD i (Except.ok "") := by
    rw [hmap]
  rw [List.getD_eq_getElem _ _ hq, List.getD_eq_getElem _ _ ha, List.getElem_map,
    List.getElem_map] at hEl
  have hEl2 : (if (FAISSManager.search st (rows questions[i])).isEmpty then
      (Except.ok ("Information for '" ++ questions[i] ++ "' not found in document.") :
        Except String String)
    else
      generate questions[i]
        ((FAISSManager.search st (rows questions[i])).map (fun r => r.text))) =
      Except.ok answers[i] := hEl
  rw [List.getD_eq_getElem questions "" hi, List.getD_eq_getElem answers "" hi2]
  constructor
  · intro hemp
    rw [if_pos hemp] at hEl2
    injection hEl2 with hEl2
    exact hEl2.symm
  · intro hne
    rw [if_neg (by rw [hne]; exact Bool.false_ne_true)] at hEl2
    exact hEl2

/-- Witness for C2: two questions, one answered from a retrieved context,
one with empty retrieval receiving the exact fallback string. -/
theorem answers_aligned_witness :
    answerPhase ⟨1, [[0]], ["ctx"], [[]]⟩ (fun q => if q = "q1" then [(0, 0)] else [])
        (fun q (_ : List String) => (Except.ok ("ans:" ++ q) : Except String String)) ["q1", "q2"] =
      Except.ok ["ans:q1", "Information for 'q2' not found in document."] ∧
    ((["ans:q1", "Information for 'q2' not found in document."].length =
        ["q1", "q2"].length) ∧
      ∀ i, i < (["q1", "q2"] : List String).length →
        ((FAISSManager.search ⟨1, [[0]], ["ctx"], [[]]⟩
            ((fun q => if q = "q1" then [(0, 0)] else []) (["q1", "q2"].getD i ""))).isEmpty = true →
          ["ans:q1", "Information for 'q2' not found in document."].getD i "" =
            "Information for '" ++ ["q1", "q2"].getD i "" ++ "' not found in document.") ∧
        ((FAISSManager.search ⟨1, [[0]], ["ctx"], [[]]⟩
            ((fun q => if q = "q1" then [(0, 0)] else []) (["q1", "q2"].getD i ""))).isEmpty = false →
          (fun q (_ : List String) => (Except.ok ("ans:" ++ q) : Except String String)) (["q1", "q2"].getD i "")
              ((FAISSManager.search ⟨1, [[0]], ["ctx"], [[]]⟩
                ((fun q => if q = "q1" then [(0, 0)] else []) (["q1", "q2"].getD i ""))).map
                  (fun r => r.text)) =
            Except.ok (["ans:q1", "Information for 'q2' not found in document."].getD i ""))) :=
  ⟨by decide, answers_aligned ⟨1, [[0]], ["ctx"], [[]]⟩
    (fun q => if q = "q1" then [(0, 0)] else []) (fun q (_ : List String) => (Except.ok ("ans:" ++ q) : Except String String))
    ["q1", "q2"] ["ans:q1", "Information for 'q2' not found in document."] (by decide)⟩

/-- C9: under the code's fail-fast `asyncio.gather`, the failure of any
single question unit — a generation error on a question whose retrieval
was non-empty — fails the whole batch: the endpoint returns a 5xx-class
outcome and no (partial) answer list is produced. -/
theorem fail_fast_no_partial_answers (st0 : FAISSState) (authHeader : Option String)
    (requiredToken : String) (txt : String)
    (split_text_into_chunks : String → Nat → Nat → List String)
    (getEmbeddings : List String → List (List ℤ)) (rows : String → List (Int × ℤ))
    (generate : String → List String → Except String String) (questions : List String)
    (q e : String)
    (hauth : checkAuth authHeader requiredToken = true)
    (hstrip : stripIsEmpty txt = false)
    (hchunks : split_text_into_chunks txt 1000 200 ≠ [])
    (hemb : (getEmbeddings (split_text_into_chunks txt 1000 200)).length =
      (split_text_into_chunks txt 1000 200).length)
    (hq : q ∈ questions)
    (hne : (FAISSManager.search
        (FAISSManager.add_documents (FAISSManager.reset_index st0)
          (getEmbeddings (split_text_into_chunks txt 1000 200))
          (split_text_into_chunks txt 1000 200) none).1 (rows q)).isEmpty = false)
    (hfail : generate q ((FAISSManager.search
        (FAISSManager.add_documents (FAISSManager.reset_index st0)
          (getEmbeddings (split_text_into_chunks txt 1000 200))
          (split_text_into_chunks txt 1000 200) none).1 (rows q)).map (fun r => r.text)) =
      Except.error e) :
    (run_hackrx_submission st0 authHeader requiredToken (some txt) split_text_into_chunks
      getEmbeddings rows generate questions).status = 500 ∧
    (run_hackrx_submission st0 authHeader requiredToken (some txt) split_text_into_chunks
      getEmbeddings rows generate questions).answers = none := by
  have hembne : getEmbeddings (split_text_into_chunks txt 1000 200) ≠ [] := by
    intro hc
    rw [hc] at hemb
    exact hchunks (List.length_eq_zero.mp hemb.symm)
  have hadd : FAISSManager.add_documents (FAISSManager.reset_index st0)
      (getEmbeddings (split_text_into_chunks txt 1000 200))
      (split_text_into_chunks txt 1000 200) none =
      (⟨st0.dimension, getEmbeddings (split_text_into_chunks txt 1000 200),
        split_text_into_chunks txt 1000 200,
        (split_text_into_chunks txt 1000 200).map (fun _ => ([] : Metadata))⟩, none) := by
    unfold FAISSManager.add_documents FAISSManager.reset_index
    rw [if_neg (fun hc => hc.elim hembne hchunks), if_neg (not_not_intro hemb)]
    simp
  rw [hadd] at hne hfail
  have hphase : ∃ e2, answerPhase
      ⟨st0.dimension, getEmbeddings (split_text_into_chunks txt 1000 200),
        split_text_into_chunks txt 1000 200,
        (split_text_into_chunks txt 1000 200).map (fun _ => ([] : Metadata))⟩
      rows generate questions = Except.error e2 := by
    apply gatherTasks_error
    refine ⟨_, List.mem_map_of_mem _ hq, e, ?_⟩
    show (if (FAISSManager.search
        ⟨st0.dimension, getEmbeddings (split_text_into_chunks txt 1000 200),
          split_text_into_chunks txt 1000 200,
          (split_text_into_chunks txt 1000 200).map (fun _ => ([] : Metadata))⟩
        (rows q)).isEmpty then
        (Except.ok ("Information for '" ++ q ++ "' not found in document.") :
          Except String String)
      else
        generate q ((FAISSManager.search
          ⟨st0.dimension, getEmbeddings (split_text_into_chunks txt 1000 200),
            split_text_into_chunks txt 1000 200,
            (split_text_into_chunks txt 1000 200).map (fun _ => ([] : Metadata))⟩
          (rows q)).map (fun r => r.text))) = Except.error e
    rw [if_neg (by rw [hne]; exact Bool.false_ne_true)]
    exact hfail
  obtain ⟨e2, he2⟩ := hphase
  have hrun : run_hackrx_submission st0 authHeader requiredToken (some txt)
      split_text_into_chunks getEmbeddings rows generate questions =
      ⟨500, none,
        ⟨st0.dimension, getEmbeddings (split_text_into_chunks txt 1000 200),
          split_text_into_chunks txt 1000 200,
          (split_text_into_chunks txt 1000 200).map (fun _ => ([] : Metadata))⟩,
        [RunEvent.extractEv, RunEvent.chunkEv, RunEvent.embedEv,
          RunEvent.resetEv, RunEvent.addEv]⟩ := by
    simp only [run_hackrx_submission, hauth, hstrip, hadd, he2]
    simp [hchunks]
  rw [hrun]
  exact ⟨rfl, rfl⟩

/-- Witness for C9: one question whose generation task fails; the batch
outcome is a 500 with no answers. -/
theorem fail_fast_no_partial_answers_witness :
    (run_hackrx_submission ⟨1, [], [], []⟩ (some "Bearer t") "t" (some "doc")
      (fun _ _ _ => ["c"]) (fun l => l.map (fun _ => [0])) (fun _ => [(0, 0)])
      (fun _ _ => (Except.error "boom" : Except String String)) ["q"]).status = 500 ∧
    (run_hackrx_submission ⟨1, [], [], []⟩ (some "Bearer t") "t" (some "doc")
      (fun _ _ _ => ["c"]) (fun l => l.map (fun _ => [0])) (fun _ => [(0, 0)])
      (fun _ _ => (Except.error "boom" : Except String String)) ["q"]).answers = none :=
  fail_fast_no_partial_answers ⟨1, [], [], []⟩ (some "Bearer t") "t" "doc"
    (fun _ _ _ => ["c"]) (fun l => l.map (fun _ => [0])) (fun _ => [(0, 0)])
    (fun _ _ => (Except.error "boom" : Except String String)) ["q"] "q" "boom"
    (by decide) (by decide) (by decide) (by decide) (by decide) (by decide) (by decide)

/-- C10: a request that fails after authentication but before indexing —
extraction returned nothing, extraction returned only whitespace, or
chunking produced zero chunks — is rejected with a 400 and the FAISS
state is exactly the pre-request state `st0`, so the previously ingested
document's entries remain stored and searchable; in particular
`reset_index` was never reached (no `resetEv` in the trace), because the
code resets only after extraction, chunking and embedding all succeed. -/
theorem pre_index_failure_preserves_state (st0 : FAISSState) (authHeader : Option String)
    (requiredToken : String) (extractResult : Option String)
    (split_text_into_chunks : String → Nat → Nat → List String)
    (getEmbeddings : List String → List (List ℤ)) (rows : String → List (Int × ℤ))
    (generate : String → List String → Except String String) (questions : List String)
    (hauth : checkAuth authHeader requiredToken = true) :
    (extractResult = none →
      run_hackrx_submission st0 authHeader requiredToken extractResult split_text_into_chunks
        getEmbeddings rows generate questions = ⟨400, none, st0, [RunEvent.extractEv]⟩) ∧
    (∀ txt, extractResult = some txt → stripIsEmpty txt = true →
      run_hackrx_submission st0 authHeader requiredToken extractResult split_text_into_chunks
        getEmbeddings rows generate questions = ⟨400, none, st0, [RunEvent.extractEv]⟩) ∧
    (∀ txt, extractResult = some txt → stripIsEmpty txt = false →
      split_text_into_chunks txt 1000 200 = [] →
      run_hackrx_submission st0 authHeader requiredToken extractResult split_text_into_chunks
        getEmbeddings rows generate questions =
        ⟨400, none, st0, [RunEvent.extractEv, RunEvent.chunkEv]⟩) := by
  refine ⟨?_, ?_, ?_⟩
  · intro hnone
    subst hnone
    unfold run_hackrx_submission
    rw [hauth, if_neg (by decide : ¬(true = false))]
  · intro txt hsome hstrip
    subst hsome
    unfold run_hackrx_submission
    rw [hauth, if_neg (by decide : ¬(true = false))]
    simp only [hstrip, if_pos]
  · intro txt hsome hstrip hchunks
    subst hsome
    unfold run_hackrx_submission
    rw [hauth, if_neg (by decide : ¬(true = false))]
    simp only [hstrip, Bool.false_eq_true, if_neg, if_pos, hchunks]
    rw [if_neg not_false]

/-- Witness for C10: whitespace-only extraction on a populated index; the
request is a 400 and the previously ingested entry is untouched. -/
theorem pre_index_failure_preserves_state_witness :
    run_hackrx_submission ⟨1, [[5]], ["old-doc-chunk"], [[]]⟩ (some "Bearer t") "t"
        (some "  \n ") (fun _ _ _ => ["c"]) (fun l => l.map (fun _ => [0]))
        (fun _ => []) (fun _ _ => (Except.ok "a" : Except String String)) [] =
      ⟨400, none, ⟨1, [[5]], ["old-doc-chunk"], [[]]⟩, [RunEvent.extractEv]⟩ :=
  (pre_index_failure_preserves_state ⟨1, [[5]], ["old-doc-chunk"], [[]]⟩ (some "Bearer t") "t"
    (some "  \n ") (fun _ _ _ => ["c"]) (fun l => l.map (fun _ => [0])) (fun _ => [])
    (fun _ _ => (Except.ok "a" : Except String String)) [] (by decide)).2.1
    "  \n " rfl (by decide)

/-- C4 (counterexample to the claim as stated): in a concrete successful
ingestion run, the first two executed steps are extraction and chunking,
and no reset has occurred yet by then — the code resets the index only
after chunking and embedding, not first. -/
theorem ingest_resets_after_chunking :
    (run_hackrx_submission ⟨1, [[5]], ["old"], [[]]⟩ (some "Bearer t") "t" (some "doc")
        (fun _ _ _ => ["doc"]) (fun l => l.map (fun _ => [0])) (fun _ => [])
        (fun _ _ => (Except.ok "ans" : Except String String)) []).trace =
      [RunEvent.extractEv, RunEvent.chunkEv, RunEvent.embedEv, RunEvent.resetEv,
        RunEvent.addEv] ∧
    (run_hackrx_submission ⟨1, [[5]], ["old"], [[]]⟩ (some "Bearer t") "t" (some "doc")
        (fun _ _ _ => ["doc"]) (fun l => l.map (fun _ => [0])) (fun _ => [])
        (fun _ _ => (Except.ok "ans" : Except String String)) []).trace.take 2 =
      [RunEvent.extractEv, RunEvent.chunkEv] ∧
    RunEvent.resetEv ∉
      (run_hackrx_submission ⟨1, [[5]], ["old"], [[]]⟩ (some "Bearer t") "t" (some "doc")
        (fun _ _ _ => ["doc"]) (fun l => l.map (fun _ => [0])) (fun _ => [])
        (fun _ _ => (Except.ok "ans" : Except String String)) []).trace.take 2 := by
  decide

/-- C4 (amended): every ingestion run executes, in order: text
extraction, splitting the text into chunks, batch-embedding all chunks in
one call, resetting the index, and adding the results; the reset
completes before the add begins — the state the add operates on is the
freshly reset one. -/
theorem ingest_step_order (st0 : FAISSState) (authHeader : Option String)
    (requiredToken : String) (txt : String)
    (split_text_into_chunks : String → Nat → Nat → List String)
    (getEmbeddings : List String → List (List ℤ)) (rows : String → List (Int × ℤ))
    (generate : String → List String → Except String String) (questions : List String)
    (hauth : checkAuth authHeader requiredToken = true)
    (hstrip : stripIsEmpty txt = false)
    (hchunks : split_text_into_chunks txt 1000 200 ≠ []) :
    (run_hackrx_submission st0 authHeader requiredToken (some txt) split_text_into_chunks
        getEmbeddings rows generate questions).trace =
      [RunEvent.extractEv, RunEvent.chunkEv, RunEvent.embedEv, RunEvent.resetEv,
        RunEvent.addEv] ∧
    (run_hackrx_submission st0 authHeader requiredToken (some txt) split_text_into_chunks
        getEmbeddings rows generate questions).state =
      (FAISSManager.add_documents (FAISSManager.reset_index st0)
        (getEmbeddings (split_text_into_chunks txt 1000 200))
        (split_text_into_chunks txt 1000 200) none).1 := by
  have hrun : ∃ s : Nat, ∃ a : Option (List String),
      run_hackrx_submission st0 authHeader requiredToken (some txt) split_text_into_chunks
        getEmbeddings rows generate questions =
      ⟨s, a,
        (FAISSManager.add_documents (FAISSManager.reset_index st0)
          (getEmbeddings (split_text_into_chunks txt 1000 200))
          (split_text_into_chunks txt 1000 200) none).1,
        [RunEvent.extractEv, RunEvent.chunkEv, RunEvent.embedEv, RunEvent.resetEv,
          RunEvent.addEv]⟩ := by
    cases hadd2 : (FAISSManager.add_documents (FAISSManager.reset_index st0)
        (getEmbeddings (split_text_into_chunks txt 1000 200))
        (split_text_into_chunks txt 1000 200) none).2 with
    | some err =>
      exact ⟨500, none, by
        simp [run_hackrx_submission, hauth, hstrip, hchunks, hadd2]⟩
    | none =>
      cases hph : answerPhase (FAISSManager.add_documents (FAISSManager.reset_index st0)
          (getEmbeddings (split_text_into_chunks txt 1000 200))
          (split_text_into_chunks txt 1000 200) none).1 rows generate questions with
      | error e =>
        exact ⟨500, none, by
          simp [run_hackrx_submission, hauth, hstrip, hchunks, hadd2, hph]⟩
      | ok ans =>
        exact ⟨200, some ans, by
          simp [run_hackrx_submission, hauth, hstrip, hchunks, hadd2, hph]⟩
  obtain ⟨s, a, hrun⟩ := hrun
  rw [hrun]
  exact ⟨rfl, rfl⟩

/-- Witness for C4's amended theorem at a concrete ingestion run. -/
theorem ingest_step_order_witness :
    (run_hackrx_submission ⟨1, [[5]], ["old"], [[]]⟩ (some "Bearer t") "t" (some "doc")
        (fun _ _ _ => ["doc"]) (fun l => l.map (fun _ => [0])) (fun _ => [])
        (fun _ _ => (Except.ok "ans" : Except String String)) ["q"]).trace =
      [RunEvent.extractEv, RunEvent.chunkEv, RunEvent.embedEv, RunEvent.resetEv,
        RunEvent.addEv] ∧
    (run_hackrx_submission ⟨1, [[5]], ["old"], [[]]⟩ (some "Bearer t") "t" (some "doc")
        (fun _ _ _ => ["doc"]) (fun l => l.map (fun _ => [0])) (fun _ => [])
        (fun _ _ => (Except.ok "ans" : Except String String)) ["q"]).state =
      (FAISSManager.add_documents
        (FAISSManager.reset_index ⟨1, [[5]], ["old"], [[]]⟩)
        ((fun l => l.map (fun _ => ([0] : List ℤ))) ((fun _ _ _ => ["doc"]) "doc" 1000 200))
        ((fun _ _ _ => ["doc"]) "doc" 1000 200) none).1 :=
  ingest_step_order ⟨1, [[5]], ["old"], [[]]⟩ (some "Bearer t") "t" "doc"
    (fun _ _ _ => ["doc"]) (fun l => l.map (fun _ => [0])) (fun _ => [])
    (fun _ _ => (Except.ok "ans" : Except String String)) ["q"]
    (by decide) (by decide) (by decide)

/-- A space-free character list is left whole by `splitSpace`. -/
theorem splitSpace_no_space (cs : List Char) (h : ' ' ∉ cs) : splitSpace cs = [cs] := by
  induction cs with
  | nil => rfl
  | cons c rest ih =>
    have hc : ¬c = ' ' := fun hc => h (hc ▸ List.mem_cons_self c rest)
    have hr : ' ' ∉ rest := fun hr => h (List.mem_cons_of_mem c hr)
    simp only [splitSpace, ih hr, if_neg hc]

/-- Splitting `pre ++ " " ++ tok` with space-free `pre` and `tok` gives
exactly the two fields. -/
theorem splitSpace_sep (pre tok : List Char) (hpre : ' ' ∉ pre) (htok : ' ' ∉ tok) :
    splitSpace (pre ++ ' ' :: tok) = [pre, tok] := by
  induction pre with
  | nil =>
    show splitSpace (' ' :: tok) = [[], tok]
    simp [splitSpace, splitSpace_no_space tok htok]
  | cons c pre ih =>
    have hc : ¬c = ' ' := fun hc => hpre (hc ▸ List.mem_cons_self c pre)
    have hp : ' ' ∉ pre := fun hp => hpre (List.mem_cons_of_mem c hp)
    show splitSpace (c :: (pre ++ ' ' :: tok)) = [c :: pre, tok]
    simp only [splitSpace, ih hp, if_neg hc]

/-- Once the auth check has passed, no branch of the endpoint produces a
401 again. -/
theorem status_ne_401_of_auth (st0 : FAISSState) (authHeader : Option String)
    (requiredToken : String) (extractResult : Option String)
    (split_text_into_chunks : String → Nat → Nat → List String)
    (getEmbeddings : List String → List (List ℤ)) (rows : String → List (Int × ℤ))
    (generate : String → List String → Except String String) (questions : List String)
    (hauth : checkAuth authHeader requiredToken = true) :
    (run_hackrx_submission st0 authHeader requiredToken extractResult split_text_into_chunks
      getEmbeddings rows generate questions).status ≠ 401 := by
  cases extractResult with
  | none => simp [run_hackrx_submission, hauth]
  | some txt =>
    by_cases hs : stripIsEmpty txt = true
    · simp [run_hackrx_submission, hauth, hs]
    · by_cases hc : split_text_into_chunks txt 1000 200 = []
      · simp [run_hackrx_submission, hauth, hs, hc]
      · cases hadd2 : (FAISSManager.add_documents (FAISSManager.reset_index st0)
            (getEmbeddings (split_text_into_chunks txt 1000 200))
            (split_text_into_chunks txt 1000 200) none).2 with
        | some err => simp [run_hackrx_submission, hauth, hs, hc, hadd2]
        | none =>
          cases hph : answerPhase (FAISSManager.add_documents (FAISSManager.reset_index st0)
              (getEmbeddings (split_text_into_chunks txt 1000 200))
              (split_text_into_chunks txt 1000 200) none).1 rows generate questions with
          | error e => simp [run_hackrx_submission, hauth, hs, hc, hadd2, hph]
          | ok ans => simp [run_hackrx_submission, hauth, hs, hc, hadd2, hph]

/-- C8: a request whose auth check fails is answered 401 with no further
processing (empty trace, state untouched, no answers); the check fails
when the `Authorization` header is absent, when it does not split into
exactly two space-separated fields, and when the bearer token mismatches
the configured secret; with the correct scheme and token the request
proceeds past the auth check and can no longer yield a 401. -/
theorem auth_check_behavior (st0 : FAISSState) (authHeader : Option String)
    (requiredToken : String) (extractResult : Option String)
    (split_text_into_chunks : String → Nat → Nat → List String)
    (getEmbeddings : List String → List (List ℤ)) (rows : String → List (Int × ℤ))
    (generate : String → List String → Except String String) (questions : List String) :
    (checkAuth authHeader requiredToken = false →
      run_hackrx_submission st0 authHeader requiredToken extractResult split_text_into_chunks
        getEmbeddings rows generate questions = ⟨401, none, st0, []⟩) ∧
    (authHeader = none → checkAuth authHeader requiredToken = false) ∧
    (∀ h, authHeader = some h → (splitSpace h.data).length ≠ 2 →
      checkAuth authHeader requiredToken = false) ∧
    (∀ t, authHeader = some ("Bearer " ++ t) → ' ' ∉ t.data → t ≠ requiredToken →
      checkAuth authHeader requiredToken = false) ∧
    (authHeader = some ("Bearer " ++ requiredToken) → ' ' ∉ requiredToken.data →
      checkAuth authHeader requiredToken = true ∧
      (run_hackrx_submission st0 authHeader requiredToken extractResult split_text_into_chunks
        getEmbeddings rows generate questions).status ≠ 401) := by
  refine ⟨?_, ?_, ?_, ?_, ?_⟩
  · intro hfalse
    unfold run_hackrx_submission
    rw [hfalse, if_pos rfl]
  · intro hnone
    subst hnone
    rfl
  · intro h hsome hlen
    subst hsome
    simp only [checkAuth]
    by_cases hd : h.data = []
    · rw [if_pos hd]
    · rw [if_neg hd]
      cases hsp : splitSpace h.data with
      | nil => rfl
      | cons a tail =>
        cases tail with
        | nil => rfl
        | cons b tail2 =>
          cases tail2 with
          | nil => exact absurd (by rw [hsp]; rfl) hlen
          | cons c tail3 => rfl
  · intro t hsome hnospace hne
    subst hsome
    simp only [checkAuth]
    have hdata : ("Bearer " ++ t).data = "Bearer".data ++ ' ' :: t.data := by
      rw [String.data_append]
      rfl
    rw [hdata, if_neg (by simp), splitSpace_sep "Bearer".data t.data (by decide) hnospace]
    have hdne : t.data ≠ requiredToken.data := by
      intro hcon
      apply hne
      cases t
      cases requiredToken
      simp_all
    simp [hdne]
  · intro hsome hnospace
    subst hsome
    have hdata : ("Bearer " ++ requiredToken).data = "Bearer".data ++ ' ' :: requiredToken.data := by
      rw [String.data_append]
      rfl
    have htrue : checkAuth (some ("Bearer " ++ requiredToken)) requiredToken = true := by
      simp only [checkAuth]
      rw [hdata, if_neg (by simp),
        splitSpace_sep "Bearer".data requiredToken.data (by decide) hnospace]
      simp
    exact ⟨htrue, status_ne_401_of_auth st0 _ requiredToken extractResult
      split_text_into_chunks getEmbeddings rows generate questions htrue⟩

/-- Witness for C8: a missing header and a wrong bearer token are refused
with a 401 and an untouched state; the correct token passes the check. -/
theorem auth_check_behavior_witness :
    (run_hackrx_submission ⟨1, [], [], []⟩ none "right" none (fun _ _ _ => [])
        (fun _ => []) (fun _ => []) (fun _ _ => (Except.ok "" : Except String String)) [] =
      ⟨401, none, ⟨1, [], [], []⟩, []⟩) ∧
    (run_hackrx_submission ⟨1, [], [], []⟩ (some "Bearer wrong") "right" none (fun _ _ _ => [])
        (fun _ => []) (fun _ => []) (fun _ _ => (Except.ok "" : Except String String)) [] =
      ⟨401, none, ⟨1, [], [], []⟩, []⟩) ∧
    (checkAuth (some ("Bearer " ++ "right")) "right" = true ∧
      (run_hackrx_submission ⟨1, [], [], []⟩ (some ("Bearer " ++ "right")) "right" none
        (fun _ _ _ => []) (fun _ => []) (fun _ => [])
        (fun _ _ => (Except.ok "" : Except String String)) []).status ≠ 401) :=
  ⟨(auth_check_behavior ⟨1, [], [], []⟩ none "right" none (fun _ _ _ => []) (fun _ => [])
      (fun _ => []) (fun _ _ => (Except.ok "" : Except String String)) []).1 (by decide),
    (auth_check_behavior ⟨1, [], [], []⟩ (some "Bearer wrong") "right" none (fun _ _ _ => [])
      (fun _ => []) (fun _ => []) (fun _ _ => (Except.ok "" : Except String String)) []).1
      (by decide),
    (auth_check_behavior ⟨1, [], [], []⟩ (some ("Bearer " ++ "right")) "right" none
      (fun _ _ _ => []) (fun _ => []) (fun _ => [])
      (fun _ _ => (Except.ok "" : Except String String)) []).2.2.2.2 rfl (by decide)⟩

